import Mathlib

/-!
Verification development for the HyperNOs physics-residual / derivative layer
and the training-loop helpers in train.py.

The modules loss_fun_with_physics.py and loss_fun.py are imported by the code
in this repository (train.py, main_singlerun.py and the pytest suite) but are
not part of the source tree given here; their behaviour is modelled from the
specification, as indicated by the doc comment of each such definition.
train.py is present and is embedded directly.

Real-valued tensor arithmetic is modelled over the rationals for the exact
derivative kernels and over the reals for the norm-based losses; fields are
total functions from integer grid indices, with stencils guarded by explicit
interior conditions.
-/

namespace HyperNOs

/-! ### Elementwise expressions

A field such as u = x ** 2 is produced in the source by applying tensor
operations to the coordinate grid; reverse-mode automatic differentiation
then yields, at every grid point, the exact derivative of that elementwise
expression.  The expression language below records the operations the test
fields use (variables, constants, sums, products, natural powers). -/

/-- Elementwise expressions in one spatial variable. -/
inductive Expr1 where
  | var : Expr1
  | const : ℚ → Expr1
  | add : Expr1 → Expr1 → Expr1
  | mul : Expr1 → Expr1 → Expr1
  | pow : Expr1 → ℕ → Expr1
deriving DecidableEq

/-- Value of a one-variable expression at a point. -/
def evalE : Expr1 → ℚ → ℚ
  | .var, x => x
  | .const c, _ => c
  | .add a b, x => evalE a x + evalE b x
  | .mul a b, x => evalE a x * evalE b x
  | .pow a n, x => (evalE a x) ^ n

/-- Exact derivative of a one-variable expression, as computed by
reverse-mode automatic differentiation through the recorded operations. -/
def derivE : Expr1 → Expr1
  | .var => .const 1
  | .const _ => .const 0
  | .add a b => .add (derivE a) (derivE b)
  | .mul a b => .add (.mul (derivE a) b) (.mul a (derivE b))
  | .pow a n => .mul (.mul (.const n) (.pow a (n - 1))) (derivE a)

/-- Elementwise expressions in two spatial variables. -/
inductive Expr2 where
  | varX : Expr2
  | varY : Expr2
  | const : ℚ → Expr2
  | add : Expr2 → Expr2 → Expr2
  | mul : Expr2 → Expr2 → Expr2
  | pow : Expr2 → ℕ → Expr2
deriving DecidableEq

/-- Value of a two-variable expression at a point. -/
def evalE2 : Expr2 → ℚ → ℚ → ℚ
  | .varX, x, _ => x
  | .varY, _, y => y
  | .const c, _, _ => c
  | .add a b, x, y => evalE2 a x y + evalE2 b x y
  | .mul a b, x, y => evalE2 a x y * evalE2 b x y
  | .pow a n, x, y => (evalE2 a x y) ^ n

/-- Exact partial derivative in x of a two-variable expression. -/
def derivX2 : Expr2 → Expr2
  | .varX => .const 1
  | .varY => .const 0
  | .const _ => .const 0
  | .add a b => .add (derivX2 a) (derivX2 b)
  | .mul a b => .add (.mul (derivX2 a) b) (.mul a (derivX2 b))
  | .pow a n => .mul (.mul (.const n) (.pow a (n - 1))) (derivX2 a)

/-- Exact partial derivative in y of a two-variable expression. -/
def derivY2 : Expr2 → Expr2
  | .varX => .const 0
  | .varY => .const 1
  | .const _ => .const 0
  | .add a b => .add (derivY2 a) (derivY2 b)
  | .mul a b => .add (.mul (derivY2 a) b) (.mul a (derivY2 b))
  | .pow a n => .mul (.mul (.const n) (.pow a (n - 1))) (derivY2 a)

/-! ### Grids -/

/-- A one-dimensional coordinate grid: batch size, number of points, the
coordinate of each point, and whether gradient tracking is enabled. -/
structure Grid1 where
  nb : ℕ
  n : ℕ
  coords : ℤ → ℚ
  requires_grad : Bool

/-- A two-dimensional coordinate grid (two coordinate tensors X and Y
replicated across the batch) with a gradient-tracking flag. -/
structure Grid2 where
  nb : ℕ
  nx : ℕ
  ny : ℕ
  X : ℤ → ℤ → ℚ
  Y : ℤ → ℤ → ℚ
  requires_grad : Bool

/-- Modelled from the spec: SpatialDerivativesAutograd.get_grid_1d from
loss_fun_with_physics.py (absent from src).  Produces a grid of shape
(batch, n) of points spanning the normalized domain, here the n equispaced
points of the unit interval, replicated across the batch, with gradient
tracking enabled for downstream automatic differentiation. -/
def SpatialDerivativesAutograd.get_grid_1d (nb n : ℕ) : Grid1 :=
  { nb := nb, n := n, coords := fun i => (i : ℚ) / ((n : ℚ) - 1), requires_grad := true }

/-- Modelled from the spec: SpatialDerivativesAutograd.get_grid_2d from
loss_fun_with_physics.py (absent from src).  Produces coordinate tensors X
and Y of shape (batch, nx, ny), equispaced over the normalized domain and
replicated across the batch, with gradient tracking enabled. -/
def SpatialDerivativesAutograd.get_grid_2d (nb nx ny : ℕ) : Grid2 :=
  { nb := nb, nx := nx, ny := ny,
    X := fun i _ => (i : ℚ) / ((nx : ℚ) - 1),
    Y := fun _ j => (j : ℚ) / ((ny : ℚ) - 1),
    requires_grad := true }

/-! ### Autograd derivative engine -/

/-- Modelled from the spec: SpatialDerivativesAutograd.first_order_1d from
loss_fun_with_physics.py (absent from src).  Given the field u (an
elementwise expression of the grid coordinates) and the grid it was
evaluated on, reverse-mode differentiation returns the exact pointwise
derivative of u with respect to the coordinates.  It requires the grid to
have gradient tracking enabled and produces no derivative otherwise
(None-gradients or an exception), modelled by the value none. -/
def SpatialDerivativesAutograd.first_order_1d (u : Expr1) (g : Grid1) :
    Option (ℤ → ℚ) :=
  if g.requires_grad then some (fun i => evalE (derivE u) (g.coords i)) else none

/-! ### Finite-difference derivative engine -/

/-- Modelled from the spec: SpatialDerivativesFiniteDiff.first_order_1d from
loss_fun_with_physics.py (absent from src).  Given only the field samples
(no grid input), the derivative tensor starts as zeros and the interior
cells 1 .. n - 2 are overwritten with the central difference divided by 2,
the stencil assuming uniform unit grid spacing; boundary cells are not
updated. -/
def SpatialDerivativesFiniteDiff.first_order_1d (n : ℕ) (u : ℤ → ℚ) : ℤ → ℚ :=
  fun i => if 1 ≤ i ∧ i ≤ (n : ℤ) - 2 then (u (i + 1) - u (i - 1)) / 2 else 0

/-- Modelled from the spec: SpatialDerivativesFiniteDiff.first_order_2d from
loss_fun_with_physics.py (absent from src).  Central differences along each
axis at interior points, unit spacing, boundary cells not updated. -/
def SpatialDerivativesFiniteDiff.first_order_2d (nx ny : ℕ) (u : ℤ → ℤ → ℚ) :
    (ℤ → ℤ → ℚ) × (ℤ → ℤ → ℚ) :=
  (fun i j => if 1 ≤ i ∧ i ≤ (nx : ℤ) - 2 then (u (i + 1) j - u (i - 1) j) / 2 else 0,
   fun i j => if 1 ≤ j ∧ j ≤ (ny : ℤ) - 2 then (u i (j + 1) - u i (j - 1)) / 2 else 0)

/-! ### Darcy residual evaluators -/

/-- Modelled from the spec: DarcyResidualAutograd from
loss_fun_with_physics.py (absent from src).  Constructed with a fixed rhs
field and invoked on the predicted field u, the coordinate grids and the
coefficient field a, it computes div(a * grad(u)) + rhs, the divergence
obtained by re-differentiating the flux components a * du/dx and a * du/dy
with automatic differentiation. -/
def DarcyResidualAutograd (rhs : ℤ → ℤ → ℚ) (u : Expr2) (X Y : ℤ → ℤ → ℚ)
    (a : Expr2) : ℤ → ℤ → ℚ :=
  fun i j =>
    evalE2 (derivX2 (Expr2.mul a (derivX2 u))) (X i j) (Y i j)
      + evalE2 (derivY2 (Expr2.mul a (derivY2 u))) (X i j) (Y i j)
      + rhs i j

/-- Modelled from the spec: DarcyResidualFiniteDiff from
loss_fun_with_physics.py (absent from src).  Constructed with a fixed rhs
field and invoked on the sampled field u and coefficient field a, it forms
the flux components a * du/dx and a * du/dy with the finite-difference
engine and re-differentiates them to obtain div(a * grad(u)), then adds
rhs. -/
def DarcyResidualFiniteDiff (nx ny : ℕ) (rhs : ℤ → ℤ → ℚ) (u a : ℤ → ℤ → ℚ) :
    ℤ → ℤ → ℚ :=
  fun i j =>
    let ux := (SpatialDerivativesFiniteDiff.first_order_2d nx ny u).1
    let uy := (SpatialDerivativesFiniteDiff.first_order_2d nx ny u).2
    (SpatialDerivativesFiniteDiff.first_order_2d nx ny (fun i j => a i j * ux i j)).1 i j
      + (SpatialDerivativesFiniteDiff.first_order_2d nx ny (fun i j => a i j * uy i j)).2 i j
      + rhs i j

/-! ### Relative Lp losses

The relative Lp loss divides the per-sample norm of the error by the
per-sample norm of the target.  The source performs the division with no
special case for a zero target norm; in exact arithmetic that ratio is
undefined (inf or NaN in floating point), modelled here by an Option-valued
division whose undefined value propagates silently through the batch
reduction. -/

/-- Lp norm of a flattened sample, with the p-th root taken as a real
power. -/
noncomputable def lp_norm (p : ℕ) (v : List ℝ) : ℝ :=
  ((v.map fun x => |x| ^ p).sum) ^ ((1 : ℝ) / (p : ℝ))

/-- Division as the source performs it: defined whenever the denominator is
nonzero, undefined (inf or NaN propagating silently) otherwise. -/
noncomputable def rdiv (a b : ℝ) : Option ℝ :=
  if b = 0 then none else some (a / b)

/-- Per-sample relative Lp ratio: norm of (pred - target) over norm of
target. -/
noncomputable def relRatio (p : ℕ) (z : List ℝ × List ℝ) : Option ℝ :=
  rdiv (lp_norm p (List.zipWith (fun a b => a - b) z.1 z.2)) (lp_norm p z.2)

/-- Sum of a batch of per-sample values; an undefined sample value makes the
whole reduction undefined, as NaN or inf would. -/
noncomputable def optSum : List (Option ℝ) → Option ℝ
  | [] => some 0
  | r :: rs => r.bind fun a => (optSum rs).map fun b => a + b

/-- Modelled from the spec: LprelLoss from loss_fun.py (absent from src).
Relative Lp loss: the per-sample ratio of the Lp norm of pred - target to
the Lp norm of target, reduced over the batch by sum, or by mean when
size_mean is true.  The division is not special-cased: a zero target norm
makes the result undefined. -/
noncomputable def LprelLoss (p : ℕ) (size_mean : Bool)
    (pred target : List (List ℝ)) : Option ℝ :=
  (optSum ((pred.zip target).map (relRatio p))).map
    fun s => if size_mean then s / (target.length : ℝ) else s

/-! ### train.py: train_fixed_model

Embedding of train_fixed_model from src/neural_operators/train.py.  A
config dictionary is a partial map from keys to numeric values; indexing a
missing key raises KeyError, modelled by the keyError constructor.  The
printed warning is modelled as a boolean.  The dataset and model builders
are opaque callables applied before the config is indexed. -/

/-- Outcome of a Python computation that may raise KeyError. -/
inductive PyResult (α : Type) where
  | ok : α → PyResult α
  | keyError : String → PyResult α
deriving DecidableEq

/-- The required_keys list of train_fixed_model (train.py lines 28-34). -/
def required_keys : List String :=
  ["learning_rate", "weight_decay", "scheduler_step", "scheduler_gamma", "epochs"]

/-- Python dictionary indexing: the value when the key is present, KeyError
otherwise. -/
def dictGet (config : String → Option ℚ) (k : String) : PyResult ℚ :=
  match config k with
  | some v => .ok v
  | none => .keyError k

/-- Embedding of train_fixed_model (train.py lines 18-58).  It warns (prints)
when any required key is missing, builds the dataset and the model, then
unconditionally indexes the config with every required key, in the
evaluation order of the call at lines 43-58 (epochs first); the first
missing key raises KeyError.  Returns the warning flag together with either
the tuple handed to train_model_without_ray or the KeyError. -/
def train_fixed_model {δ μ : Type} (config : String → Option ℚ)
    (model_builder : (String → Option ℚ) → μ)
    (dataset_builder : (String → Option ℚ) → δ) :
    Bool × PyResult (δ × μ × ℚ × ℚ × ℚ × ℚ × ℚ) :=
  let missing_keys := required_keys.filter fun k => (config k).isNone
  let warned := !missing_keys.isEmpty
  let dataset := dataset_builder config
  let model := model_builder config
  (warned,
    match dictGet config "epochs" with
    | .keyError k => .keyError k
    | .ok e =>
      match dictGet config "learning_rate" with
      | .keyError k => .keyError k
      | .ok lr =>
        match dictGet config "weight_decay" with
        | .keyError k => .keyError k
        | .ok wd =>
          match dictGet config "scheduler_step" with
          | .keyError k => .keyError k
          | .ok st =>
            match dictGet config "scheduler_gamma" with
            | .keyError k => .keyError k
            | .ok ga => .ok (dataset, model, e, lr, wd, st, ga))

/-! ### train.py: validate_epoch

Embedding of validate_epoch (train.py lines 331-438).  The loss functions
imported from loss_fun.py are parameters of the embedding: the claim this
section settles does not depend on their values, only on which accumulator
each branch updates.  A batch is an input-output pair; forward is the model
application and batch_size the size of the leading dimension of an input
batch. -/

/-- The per-dimension loss functions validate_epoch draws from loss_fun.py:
relative L1 and L2, and the semi-H1 and H1 losses for problem_dim 1 and 2. -/
structure ValLossFns (β : Type) where
  lprel1 : β → β → ℝ
  lprel2 : β → β → ℝ
  semih1_1d : β → β → ℝ
  h1_1d : β → β → ℝ
  semih1_2d : β → β → ℝ
  h1_2d : β → β → ℝ

/-- One step of the test loop of validate_epoch: accumulates the relative L1
and L2 errors, accumulates semi-H1 and H1 only when problem_dim is 1 or 2
(train.py lines 384-397, an if/elif with no else branch), and counts the
samples seen. -/
noncomputable def val_test_step {α β : Type} (L : ValLossFns β) (problem_dim : ℕ)
    (forward : α → β) (batch_size : α → ℕ)
    (acc : ℝ × ℝ × ℝ × ℝ × ℕ) (b : α × β) : ℝ × ℝ × ℝ × ℝ × ℕ :=
  let pred := forward b.1
  let sh_h :=
    if problem_dim = 1 then
      (acc.2.2.1 + L.semih1_1d pred b.2, acc.2.2.2.1 + L.h1_1d pred b.2)
    else if problem_dim = 2 then
      (acc.2.2.1 + L.semih1_2d pred b.2, acc.2.2.2.1 + L.h1_2d pred b.2)
    else (acc.2.2.1, acc.2.2.2.1)
  (acc.1 + L.lprel1 pred b.2, acc.2.1 + L.lprel2 pred b.2,
    sh_h.1, sh_h.2, acc.2.2.2.2 + batch_size b.1)

/-- Embedding of validate_epoch (train.py lines 331-438): accumulate the four
test errors and the sample count over the test loader, recompute the train
loss over the train loader, and return the five accumulators divided by the
corresponding sample counts, in the order (relative L1, relative L2,
relative semi-H1, relative H1, train loss). -/
noncomputable def validate_epoch {α β : Type} (L : ValLossFns β) (problem_dim : ℕ)
    (forward : α → β) (batch_size : α → ℕ)
    (loss : β → β → ℝ) (loss_phys : β → α → ℝ)
    (test_loader train_loader : List (α × β)) : ℝ × ℝ × ℝ × ℝ × ℝ :=
  let t := test_loader.foldl (val_test_step L problem_dim forward batch_size)
    (0, 0, 0, 0, 0)
  let tr := train_loader.foldl
    (fun (acc : ℝ × ℕ) b =>
      (acc.1 + (loss (forward b.1) b.2 + loss_phys (forward b.1) b.1),
        acc.2 + batch_size b.1))
    (0, 0)
  (t.1 / (t.2.2.2.2 : ℝ), t.2.1 / (t.2.2.2.2 : ℝ), t.2.2.1 / (t.2.2.2.2 : ℝ),
    t.2.2.2.1 / (t.2.2.2.2 : ℝ), tr.1 / (tr.2 : ℝ))

/-! ### train.py: train_epoch

Embedding of train_epoch (train.py lines 263-328).  Tensors carry a device
tag so that device movement (.to(device), .cpu()) is observable; model
evaluation, backpropagation and the optimizer step do not affect the
returned value and are omitted.  The local variable esempio_test is bound
only on the first batch when n_idx is positive; returning it while unbound
is Python's UnboundLocalError. -/

/-- Compute device of a tensor. -/
inductive Device where
  | cpu : Device
  | cuda : Device
deriving DecidableEq

/-- A tensor: its device and its data along the leading (batch) dimension. -/
structure Tensor (σ : Type) where
  device : Device
  data : List σ
deriving DecidableEq

/-- Move a tensor to a device. -/
def Tensor.to {σ : Type} (t : Tensor σ) (d : Device) : Tensor σ :=
  { t with device := d }

/-- Move a tensor to the CPU. -/
def Tensor.cpu {σ : Type} (t : Tensor σ) : Tensor σ :=
  t.to Device.cpu

/-- Python slicing t[:n] along the leading dimension, for positive n. -/
def Tensor.slice {σ : Type} (t : Tensor σ) (n : ℤ) : Tensor σ :=
  { t with data := t.data.take n.toNat }

/-- What train_epoch returns: None, the captured pair for the tensorboard
plot, or the UnboundLocalError raised when the first-batch capture never
ran. -/
inductive EpochResult (σ τ : Type) where
  | noneResult : EpochResult σ τ
  | pair : Tensor σ → Tensor τ → EpochResult σ τ
  | unboundLocal : EpochResult σ τ
deriving DecidableEq

/-- The batch loop of train_epoch (train.py lines 289-320), restricted to the
state that determines the returned value: each batch is moved to the
device, and on step 0 with positive n_idx the first n_idx samples of the
input and output batches are captured and moved to the CPU. -/
def train_epoch_loop {σ τ : Type} (device : Device) (n_idx : ℤ) :
    List (Tensor σ × Tensor τ) → ℕ → Option (Tensor σ × Tensor τ) →
    Option (Tensor σ × Tensor τ)
  | [], _, acc => acc
  | b :: rest, step, acc =>
    let input_batch := b.1.to device
    let output_batch := b.2.to device
    let acc2 :=
      if step = 0 ∧ 0 < n_idx then
        some ((input_batch.slice n_idx).cpu, (output_batch.slice n_idx).cpu)
      else acc
    train_epoch_loop device n_idx rest (step + 1) acc2

/-- Embedding of train_epoch (train.py lines 263-328): run the batch loop,
then return the captured pair when n_idx is positive (UnboundLocalError if
no batch ever ran) and None otherwise. -/
def train_epoch {σ τ : Type} (device : Device) (n_idx : ℤ)
    (train_loader : List (Tensor σ × Tensor τ)) : EpochResult σ τ :=
  match train_epoch_loop device n_idx train_loader 0 none with
  | some (e, s) => if 0 < n_idx then .pair e s else .noneResult
  | none => if 0 < n_idx then .unboundLocal else .noneResult

/-! ## Helper lemmas -/

/-- The x-component of the 2D finite-difference first derivative is the
central difference at x-interior points. -/
lemma fd2d_x_interior (nx ny : ℕ) (u : ℤ → ℤ → ℚ) (i j : ℤ)
    (h1 : 1 ≤ i) (h2 : i ≤ (nx : ℤ) - 2) :
    (SpatialDerivativesFiniteDiff.first_order_2d nx ny u).1 i j
      = (u (i + 1) j - u (i - 1) j) / 2 := by
  simp only [SpatialDerivativesFiniteDiff.first_order_2d, if_pos (And.intro h1 h2)]

/-- The y-component of the 2D finite-difference first derivative is the
central difference at y-interior points. -/
lemma fd2d_y_interior (nx ny : ℕ) (u : ℤ → ℤ → ℚ) (i j : ℤ)
    (h1 : 1 ≤ j) (h2 : j ≤ (ny : ℤ) - 2) :
    (SpatialDerivativesFiniteDiff.first_order_2d nx ny u).2 i j
      = (u i (j + 1) - u i (j - 1)) / 2 := by
  simp only [SpatialDerivativesFiniteDiff.first_order_2d, if_pos (And.intro h1 h2)]

/-- Subtracting a list from itself elementwise gives a list of zeros. -/
lemma zipWith_sub_self (s : List ℝ) :
    List.zipWith (fun a b => a - b) s s = List.replicate s.length 0 := by
  induction s with
  | nil => rfl
  | cons a t ih => simp [List.zipWith, ih, List.replicate]

/-- The Lp norm of a list of zeros is zero, for positive p. -/
lemma lp_norm_replicate_zero (p : ℕ) (hp : p ≠ 0) (n : ℕ) :
    lp_norm p (List.replicate n 0) = 0 := by
  unfold lp_norm
  rw [List.map_replicate]
  rw [show |(0 : ℝ)| ^ p = 0 by simp [zero_pow hp]]
  rw [List.sum_replicate, smul_zero]
  exact Real.zero_rpow (one_div_ne_zero (Nat.cast_ne_zero.mpr hp))

/-- A batch sum all of whose per-sample values are zero is zero. -/
lemma optSum_all_zero (l : List (Option ℝ)) (h : ∀ r ∈ l, r = some 0) :
    optSum l = some 0 := by
  induction l with
  | nil => rfl
  | cons r rs ih =>
    have hr := h r (List.mem_cons_self r rs)
    have hrs := ih fun x hx => h x (List.mem_cons_of_mem r hx)
    simp only [optSum, hr, hrs]
    norm_num

/-- One undefined per-sample value makes the batch sum undefined. -/
lemma optSum_none_mem (l : List (Option ℝ)) (h : (none : Option ℝ) ∈ l) :
    optSum l = none := by
  induction l with
  | nil => simp at h
  | cons r rs ih =>
    rcases List.mem_cons.mp h with rfl | hmem
    · simp [optSum]
    · cases r <;> simp [optSum, ih hmem]

/-- Zipping a list with itself pairs each element with itself. -/
lemma zip_self {γ : Type} (t : List γ) : t.zip t = t.map fun s => (s, s) := by
  induction t with
  | nil => rfl
  | cons a l ih => simp [List.zip, ih]

/-! ## Theorems -/

/-- C1: for the autograd derivative strategy, on the 1D grid built by
get_grid_1d with shape [1, 10] (a batch of points in the unit interval) and
the field u = x squared, first_order_1d(u, x) returns a derivative field
equal to 2x within absolute tolerance 1e-6 at every grid point (indeed
exactly). -/
theorem C1_autograd_first_order_1d_sq :
    ∃ u_x : ℤ → ℚ,
      SpatialDerivativesAutograd.first_order_1d (Expr1.pow Expr1.var 2)
        (SpatialDerivativesAutograd.get_grid_1d 1 10) = some u_x ∧
      ∀ i : ℤ,
        |u_x i - 2 * (SpatialDerivativesAutograd.get_grid_1d 1 10).coords i|
          ≤ 1 / 1000000 := by
  refine ⟨_, rfl, fun i => ?_⟩
  simp [derivE, evalE, SpatialDerivativesAutograd.get_grid_1d]

/-- C2: for the finite-difference strategy on the field u = x squared sampled
on a uniform unit-spacing grid of 10 points, first_order_1d (which takes no
grid input) computes the central difference at every interior index
1 .. 8, agreeing with 2x within absolute tolerance 1e-2 there (indeed
exactly), while boundary indices are not updated by the stencil and keep
their initial value. -/
theorem C2_finitediff_first_order_1d_sq :
    (∀ i : ℤ, 1 ≤ i → i ≤ 8 →
      SpatialDerivativesFiniteDiff.first_order_1d 10 (fun j => (j : ℚ) ^ 2) i
          = ((((i + 1 : ℤ) : ℚ)) ^ 2 - (((i - 1 : ℤ) : ℚ)) ^ 2) / 2 ∧
      |SpatialDerivativesFiniteDiff.first_order_1d 10 (fun j => (j : ℚ) ^ 2) i
          - 2 * (i : ℚ)| ≤ 1 / 100) ∧
    (∀ i : ℤ, i ≤ 0 ∨ 9 ≤ i →
      SpatialDerivativesFiniteDiff.first_order_1d 10 (fun j => (j : ℚ) ^ 2) i = 0) := by
  constructor
  · intro i h1 h8
    have hint : 1 ≤ i ∧ i ≤ ((10 : ℕ) : ℤ) - 2 := ⟨h1, by omega⟩
    constructor
    · simp only [SpatialDerivativesFiniteDiff.first_order_1d, if_pos hint]
    · simp only [SpatialDerivativesFiniteDiff.first_order_1d, if_pos hint]
      rw [show ((((i + 1 : ℤ) : ℚ)) ^ 2 - (((i - 1 : ℤ) : ℚ)) ^ 2) / 2 = 2 * (i : ℚ) by
        push_cast; ring]
      simp
  · intro i hi
    have hout : ¬(1 ≤ i ∧ i ≤ ((10 : ℕ) : ℤ) - 2) := by omega
    simp only [SpatialDerivativesFiniteDiff.first_order_1d, if_neg hout]

/-- Witness for C2 at the concrete interior index 4 and the boundary index 0. -/
theorem C2_finitediff_first_order_1d_sq_witness :
    (SpatialDerivativesFiniteDiff.first_order_1d 10 (fun j => (j : ℚ) ^ 2) 4
        = (((5 : ℚ)) ^ 2 - ((3 : ℚ)) ^ 2) / 2 ∧
      |SpatialDerivativesFiniteDiff.first_order_1d 10 (fun j => (j : ℚ) ^ 2) 4
        - 2 * (4 : ℚ)| ≤ 1 / 100) ∧
    SpatialDerivativesFiniteDiff.first_order_1d 10 (fun j => (j : ℚ) ^ 2) 0 = 0 := by
  have h := C2_finitediff_first_order_1d_sq
  refine ⟨⟨?_, (h.1 4 (by decide) (by decide)).2⟩, h.2 0 (Or.inl (by decide))⟩
  have h4 := (h.1 4 (by decide) (by decide)).1
  norm_num at h4 ⊢
  exact h4

/-- C3: the Darcy residual div(a * grad(u)) + rhs, for u = x squared plus y
squared, a = 1 and rhs = 1, equals 5 everywhere: within 1e-6 at every point
for the autograd variant on the tracking grid of shape [1, 10, 10], and
within 1e-2 at every interior point (two cells from each edge) for the
finite-difference variant on a unit-spacing grid of any shape. -/
theorem C3_darcy_residual_eq_five :
    (∀ i j : ℤ,
      |DarcyResidualAutograd (fun _ _ => 1)
          (Expr2.add (Expr2.pow Expr2.varX 2) (Expr2.pow Expr2.varY 2))
          (SpatialDerivativesAutograd.get_grid_2d 1 10 10).X
          (SpatialDerivativesAutograd.get_grid_2d 1 10 10).Y
          (Expr2.const 1) i j - 5| ≤ 1 / 1000000) ∧
    (∀ (nx ny : ℕ) (i j : ℤ), 2 ≤ i → i ≤ (nx : ℤ) - 3 → 2 ≤ j → j ≤ (ny : ℤ) - 3 →
      |DarcyResidualFiniteDiff nx ny (fun _ _ => 1)
          (fun i j => (i : ℚ) ^ 2 + (j : ℚ) ^ 2) (fun _ _ => 1) i j - 5| ≤ 1 / 100) := by
  constructor
  · intro i j
    refine le_trans (le_of_eq ?_) (by norm_num : (0 : ℚ) ≤ 1 / 1000000)
    rw [abs_eq_zero]
    simp only [DarcyResidualAutograd, SpatialDerivativesAutograd.get_grid_2d,
      derivX2, derivY2, evalE2]
    push_cast
    ring
  · intro nx ny i j h2i hi h2j hj
    refine le_trans (le_of_eq ?_) (by norm_num : (0 : ℚ) ≤ 1 / 100)
    rw [abs_eq_zero]
    simp only [DarcyResidualFiniteDiff, one_mul]
    rw [fd2d_x_interior nx ny _ i j (by omega) (by omega),
      fd2d_y_interior nx ny _ i j (by omega) (by omega),
      fd2d_x_interior nx ny _ (i + 1) j (by omega) (by omega),
      fd2d_x_interior nx ny _ (i - 1) j (by omega) (by omega),
      fd2d_y_interior nx ny _ i (j + 1) (by omega) (by omega),
      fd2d_y_interior nx ny _ i (j - 1) (by omega) (by omega)]
    push_cast
    ring

/-- Witness for C3: the finite-difference Darcy residual on the 20 by 10
unit-spacing grid of the test, evaluated at the interior point (5, 5). -/
theorem C3_darcy_residual_eq_five_witness :
    |DarcyResidualFiniteDiff 20 10 (fun _ _ => 1)
        (fun i j => (i : ℚ) ^ 2 + (j : ℚ) ^ 2) (fun _ _ => 1) 5 5 - 5| ≤ 1 / 100 :=
  C3_darcy_residual_eq_five.2 20 10 5 5 (by omega) (by omega) (by omega) (by omega)

/-- C4, counterexample: the relative Lp loss of a field against itself is not
zero for every field: for the single-sample batch whose sample is the zero
field, the target norm is zero and the ratio is undefined, so the loss is
not 0. -/
theorem C4_counterexample_zero_field :
    LprelLoss 1 false [[0]] [[0]] ≠ some 0 := by
  have h0 : lp_norm 1 [(0 : ℝ)] = 0 := by
    simp [lp_norm]
  simp [LprelLoss, relRatio, rdiv, optSum, h0]

/-- C4, amended: for p equal to 1 or 2, the relative Lp loss of a field t
against itself is exactly 0 whenever every sample of t has nonzero Lp norm
(for a zero-norm sample the ratio is undefined and the loss is not 0). -/
theorem C4_self_loss_zero (p : ℕ) (hp : p = 1 ∨ p = 2) (size_mean : Bool)
    (t : List (List ℝ)) (h : ∀ s ∈ t, lp_norm p s ≠ 0) :
    LprelLoss p size_mean t t = some 0 := by
  have hp0 : p ≠ 0 := by rcases hp with rfl | rfl <;> norm_num
  have hz : optSum ((t.zip t).map (relRatio p)) = some 0 := by
    apply optSum_all_zero
    intro r hr
    rw [zip_self, List.map_map] at hr
    obtain ⟨s, hs, rfl⟩ := List.mem_map.mp hr
    simp only [Function.comp, relRatio]
    rw [zipWith_sub_self, lp_norm_replicate_zero p hp0, rdiv, if_neg (h s hs)]
    simp
  rw [LprelLoss, hz]
  cases size_mean <;> simp

/-- Witness for C4 as amended, at the one-sample batch with sample (3, 4) and
p = 2. -/
theorem C4_self_loss_zero_witness :
    (∀ s ∈ [[(3 : ℝ), 4]], lp_norm 2 s ≠ 0) ∧
      LprelLoss 2 false [[(3 : ℝ), 4]] [[(3 : ℝ), 4]] = some 0 := by
  have hn : ∀ s ∈ [[(3 : ℝ), 4]], lp_norm 2 s ≠ 0 := by
    intro s hs
    have hs34 : s = [(3 : ℝ), 4] := by simpa using hs
    subst hs34
    have h25 : lp_norm 2 [(3 : ℝ), 4] = (25 : ℝ) ^ ((1 : ℝ) / 2) := by
      unfold lp_norm
      norm_num
    rw [h25]
    exact ne_of_gt (Real.rpow_pos_of_pos (by norm_num) _)
  exact ⟨hn, C4_self_loss_zero 2 (Or.inr rfl) false [[(3 : ℝ), 4]] hn⟩

/-- The Lp norm is absolutely homogeneous: scaling every entry by c scales
the norm by the absolute value of c, for positive p. -/
lemma lp_norm_smul (p : ℕ) (hp : p ≠ 0) (c : ℝ) (s : List ℝ) :
    lp_norm p (s.map fun x => c * x) = |c| * lp_norm p s := by
  unfold lp_norm
  rw [List.map_map]
  rw [show s.map ((fun x => |x| ^ p) ∘ fun x => c * x)
      = s.map fun x => |c| ^ p * |x| ^ p from
    List.map_congr_left fun a _ => by simp [Function.comp, abs_mul, mul_pow]]
  rw [List.sum_map_mul_left]
  have hS : 0 ≤ (s.map fun x => |x| ^ p).sum := by
    apply List.sum_nonneg
    intro x hx
    obtain ⟨a, _, rfl⟩ := List.mem_map.mp hx
    positivity
  rw [Real.mul_rpow (by positivity) hS]
  congr 1
  rw [← Real.rpow_natCast |c| p, ← Real.rpow_mul (abs_nonneg c), mul_one_div,
    div_self (Nat.cast_ne_zero.mpr hp), Real.rpow_one]

/-- Elementwise subtraction commutes with scaling both lists by c. -/
lemma zipWith_sub_map_mul (c : ℝ) :
    ∀ a b : List ℝ,
      List.zipWith (fun x y => x - y) (a.map fun x => c * x) (b.map fun x => c * x)
        = (List.zipWith (fun x y => x - y) a b).map fun x => c * x
  | [], _ => by simp
  | _ :: _, [] => by simp
  | x :: a, y :: b => by
    simp only [List.map_cons, List.zipWith_cons_cons, zipWith_sub_map_mul c a b]
    rw [mul_sub]

/-- The per-sample relative Lp ratio is invariant under jointly scaling the
prediction and the target by a nonzero constant (an undefined ratio stays
undefined). -/
lemma relRatio_smul (p : ℕ) (hp : p ≠ 0) (c : ℝ) (hc : c ≠ 0)
    (z : List ℝ × List ℝ) :
    relRatio p (z.1.map fun x => c * x, z.2.map fun x => c * x) = relRatio p z := by
  unfold relRatio
  simp only
  rw [zipWith_sub_map_mul, lp_norm_smul p hp, lp_norm_smul p hp]
  unfold rdiv
  by_cases hD : lp_norm p z.2 = 0
  · simp [hD]
  · rw [if_neg (mul_ne_zero (abs_ne_zero.mpr hc) hD), if_neg hD,
      mul_div_mul_left _ _ (abs_ne_zero.mpr hc)]

/-- C5: for p equal to 1 or 2 and any nonzero scalar c, the relative Lp loss
is unchanged when the prediction and the target are both rescaled by c. -/
theorem C5_scale_invariance (p : ℕ) (hp : p = 1 ∨ p = 2) (size_mean : Bool)
    (c : ℝ) (hc : c ≠ 0) (pred target : List (List ℝ)) :
    LprelLoss p size_mean (pred.map (List.map fun x => c * x))
        (target.map (List.map fun x => c * x))
      = LprelLoss p size_mean pred target := by
  have hp0 : p ≠ 0 := by rcases hp with rfl | rfl <;> norm_num
  unfold LprelLoss
  rw [List.zip_map, List.map_map, List.length_map]
  rw [show (pred.zip target).map (relRatio p ∘ Prod.map (List.map fun x => c * x)
        (List.map fun x => c * x))
      = (pred.zip target).map (relRatio p) from
    List.map_congr_left fun z _ => relRatio_smul p hp0 c hc z]

/-- Witness for C5 at p = 2, c = 2, a one-sample prediction and target. -/
theorem C5_scale_invariance_witness :
    (2 : ℝ) ≠ 0 ∧
      LprelLoss 2 false ([[(1 : ℝ)]].map (List.map fun x => (2 : ℝ) * x))
          ([[(3 : ℝ)]].map (List.map fun x => (2 : ℝ) * x))
        = LprelLoss 2 false [[(1 : ℝ)]] [[(3 : ℝ)]] :=
  ⟨by norm_num,
    C5_scale_invariance 2 (Or.inr rfl) false 2 (by norm_num) [[(1 : ℝ)]] [[(3 : ℝ)]]⟩

/-- In two lists of equal length, every element of the second list is paired
with some element of the first by zip. -/
lemma zip_pair_of_mem {γ : Type} (s : γ) :
    ∀ pred target : List γ, pred.length = target.length → s ∈ target →
      ∃ x, (x, s) ∈ pred.zip target
  | [], _ :: _, hlen, _ => by simp at hlen
  | _ :: _, [], _, hs => by simp at hs
  | x :: pred, t :: target, hlen, hs => by
    rcases List.mem_cons.mp hs with rfl | hmem
    · exact ⟨x, List.mem_cons_self _ _⟩
    · obtain ⟨x', hx'⟩ := zip_pair_of_mem s pred target (by simpa using hlen) hmem
      exact ⟨x', List.mem_cons_of_mem _ hx'⟩

/-- C6: when some sample of the target has zero Lp norm, the relative Lp loss
divides by that norm with no special case: the result is the undefined
value (inf or NaN propagating silently through the batch reduction), and no
explicit division-by-zero-norm error is raised — the model has no error
outcome at all, only the silently propagated undefined value. -/
theorem C6_zero_target_norm_undefined (p : ℕ) (size_mean : Bool)
    (pred target : List (List ℝ)) (hlen : pred.length = target.length)
    (h : ∃ s ∈ target, lp_norm p s = 0) :
    LprelLoss p size_mean pred target = none := by
  obtain ⟨s, hs, hs0⟩ := h
  obtain ⟨x, hx⟩ := zip_pair_of_mem s pred target hlen hs
  have hnone : (none : Option ℝ) ∈ (pred.zip target).map (relRatio p) :=
    List.mem_map.mpr ⟨(x, s), hx, by simp [relRatio, rdiv, hs0]⟩
  rw [LprelLoss, optSum_none_mem _ hnone]
  rfl

/-- Witness for C6: the target whose single sample is the zero field. -/
theorem C6_zero_target_norm_undefined_witness :
    lp_norm 2 [(0 : ℝ)] = 0 ∧
      LprelLoss 2 false [[(1 : ℝ)]] [[(0 : ℝ)]] = none := by
  have h0 : lp_norm 2 [(0 : ℝ)] = 0 := by
    unfold lp_norm
    norm_num
  exact ⟨h0, C6_zero_target_norm_undefined 2 false [[(1 : ℝ)]] [[(0 : ℝ)]] rfl
    ⟨[(0 : ℝ)], by simp, h0⟩⟩

/-- C7, counterexample: a finite-difference derivative of a field sampled on
a gradient-tracking grid (the autograd grid of shape [1, 10], which has
gradient tracking enabled) is not rejected: the call returns the stencil
result (here the value 2/81 at index 1) rather than failing with an error,
so the mismatch is not validated at call time. -/
theorem C7_counterexample_fd_on_tracking_grid :
    (SpatialDerivativesAutograd.get_grid_1d 1 10).requires_grad = true ∧
    SpatialDerivativesFiniteDiff.first_order_1d 10
        (fun i => ((SpatialDerivativesAutograd.get_grid_1d 1 10).coords i) ^ 2) 1
      = 2 / 81 := by
  refine ⟨rfl, ?_⟩
  norm_num [SpatialDerivativesFiniteDiff.first_order_1d,
    SpatialDerivativesAutograd.get_grid_1d]

/-- C7, amended: only the autograd half of the mismatch is detected: an
autograd derivative requested on a grid without gradient tracking produces
no derivative result (None-gradients or an exception), while the
finite-difference engine takes no grid input, performs no validation, and
returns its central-difference stencil value at interior points for any
field, including one sampled on a gradient-tracking grid. -/
theorem C7_amended_strategy_mismatch :
    (∀ (u : Expr1) (g : Grid1), g.requires_grad = false →
      SpatialDerivativesAutograd.first_order_1d u g = none) ∧
    (∀ (n : ℕ) (u : ℤ → ℚ) (i : ℤ), 1 ≤ i → i ≤ (n : ℤ) - 2 →
      SpatialDerivativesFiniteDiff.first_order_1d n u i
        = (u (i + 1) - u (i - 1)) / 2) := by
  constructor
  · intro u g hg
    simp [SpatialDerivativesAutograd.first_order_1d, hg]
  · intro n u i h1 h2
    simp only [SpatialDerivativesFiniteDiff.first_order_1d, if_pos (And.intro h1 h2)]

/-- Witness for C7 as amended: a non-tracking grid gives no autograd
derivative, and the finite-difference stencil value at index 3 of the
identity field is 1. -/
theorem C7_amended_strategy_mismatch_witness :
    SpatialDerivativesAutograd.first_order_1d Expr1.var
        { nb := 1, n := 10, coords := fun i => (i : ℚ), requires_grad := false }
      = none ∧
    SpatialDerivativesFiniteDiff.first_order_1d 10 (fun j => (j : ℚ)) 3 = 1 := by
  constructor
  · exact C7_amended_strategy_mismatch.1 Expr1.var _ rfl
  · have h := C7_amended_strategy_mismatch.2 10 (fun j => (j : ℚ)) 3 (by omega) (by omega)
    rw [h]
    norm_num

/-- C8: for every config missing at least one of the five required keys,
train_fixed_model prints the warning announcing a default value, but then
unconditionally indexes the config with every required key, so the call
raises KeyError and no default value is ever substituted. -/
theorem C8_missing_key_keyerror {δ μ : Type} (config : String → Option ℚ)
    (model_builder : (String → Option ℚ) → μ)
    (dataset_builder : (String → Option ℚ) → δ)
    (h : ∃ k ∈ required_keys, config k = none) :
    (train_fixed_model config model_builder dataset_builder).1 = true ∧
    ∃ k, (train_fixed_model config model_builder dataset_builder).2
        = PyResult.keyError k := by
  obtain ⟨k, hk, hnone⟩ := h
  have hmem : k ∈ required_keys.filter fun k => (config k).isNone :=
    List.mem_filter.mpr ⟨hk, by simp [hnone]⟩
  constructor
  · show (!(required_keys.filter fun k => (config k).isNone).isEmpty) = true
    cases hfil : required_keys.filter fun k => (config k).isNone with
    | nil => rw [hfil] at hmem; simp at hmem
    | cons a l => simp
  · rcases h1 : config "epochs" with _ | v1
    · exact ⟨"epochs", by simp [train_fixed_model, dictGet, h1]⟩
    rcases h2 : config "learning_rate" with _ | v2
    · exact ⟨"learning_rate", by simp [train_fixed_model, dictGet, h1, h2]⟩
    rcases h3 : config "weight_decay" with _ | v3
    · exact ⟨"weight_decay", by simp [train_fixed_model, dictGet, h1, h2, h3]⟩
    rcases h4 : config "scheduler_step" with _ | v4
    · exact ⟨"scheduler_step", by simp [train_fixed_model, dictGet, h1, h2, h3, h4]⟩
    rcases h5 : config "scheduler_gamma" with _ | v5
    · exact ⟨"scheduler_gamma",
        by simp [train_fixed_model, dictGet, h1, h2, h3, h4, h5]⟩
    exfalso
    simp only [required_keys, List.mem_cons, List.not_mem_nil, or_false] at hk
    rcases hk with rfl | rfl | rfl | rfl | rfl <;> simp_all

/-- Witness for C8: the empty config, which is missing every required key. -/
theorem C8_missing_key_keyerror_witness :
    (∃ k ∈ required_keys, (fun _ : String => (none : Option ℚ)) k = none) ∧
    ((train_fixed_model (fun _ => none) (fun _ => ()) (fun _ => ())).1 = true ∧
      ∃ k, (train_fixed_model (fun _ => none) (fun _ => ()) (fun _ => ())).2
          = PyResult.keyError k) := by
  have hx : ∃ k ∈ required_keys, (fun _ : String => (none : Option ℚ)) k = none :=
    ⟨"epochs", by simp [required_keys], rfl⟩
  exact ⟨hx, C8_missing_key_keyerror _ _ _ hx⟩

/-- For an unsupported problem dimension, the test fold of validate_epoch
leaves the semi-H1 and H1 accumulators at their initial values, while the
L1, L2 and sample-count accumulators evolve exactly as they would for a
supported dimension. -/
lemma val_test_fold_pd {α β : Type} (L : ValLossFns β) (pd : ℕ)
    (hpd1 : pd ≠ 1) (hpd2 : pd ≠ 2) (forward : α → β) (bs : α → ℕ)
    (l : List (α × β)) :
    ∀ (a b c d : ℝ) (e : ℕ) (c1 d1 : ℝ),
      (l.foldl (val_test_step L pd forward bs) (a, b, c, d, e)).1
          = (l.foldl (val_test_step L 1 forward bs) (a, b, c1, d1, e)).1 ∧
      (l.foldl (val_test_step L pd forward bs) (a, b, c, d, e)).2.1
          = (l.foldl (val_test_step L 1 forward bs) (a, b, c1, d1, e)).2.1 ∧
      (l.foldl (val_test_step L pd forward bs) (a, b, c, d, e)).2.2.1 = c ∧
      (l.foldl (val_test_step L pd forward bs) (a, b, c, d, e)).2.2.2.1 = d ∧
      (l.foldl (val_test_step L pd forward bs) (a, b, c, d, e)).2.2.2.2
          = (l.foldl (val_test_step L 1 forward bs) (a, b, c1, d1, e)).2.2.2.2 := by
  induction l with
  | nil => intro a b c d e c1 d1; simp
  | cons x t ih =>
    intro a b c d e c1 d1
    have hstep_pd : val_test_step L pd forward bs (a, b, c, d, e) x
        = (a + L.lprel1 (forward x.1) x.2, b + L.lprel2 (forward x.1) x.2,
            c, d, e + bs x.1) := by
      simp [val_test_step, hpd1, hpd2]
    have hstep_1 : val_test_step L 1 forward bs (a, b, c1, d1, e) x
        = (a + L.lprel1 (forward x.1) x.2, b + L.lprel2 (forward x.1) x.2,
            c1 + L.semih1_1d (forward x.1) x.2, d1 + L.h1_1d (forward x.1) x.2,
            e + bs x.1) := by
      simp [val_test_step]
    simp only [List.foldl_cons, hstep_pd, hstep_1]
    exact ih _ _ _ _ _ _ _

/-- C9: for every model whose problem_dim is neither 1 nor 2, validate_epoch
never updates the semi-H1 and H1 accumulators and returns 0 for both the
relative semi-H1 and relative H1 errors, raising no unsupported-dimension
error; the relative L1 and L2 errors (and train loss) are still computed
and returned, identical to what a supported dimension would produce. -/
theorem C9_unsupported_dim_returns_zero {α β : Type} (L : ValLossFns β)
    (pd : ℕ) (hpd1 : pd ≠ 1) (hpd2 : pd ≠ 2)
    (forward : α → β) (bs : α → ℕ) (loss : β → β → ℝ) (loss_phys : β → α → ℝ)
    (test_loader train_loader : List (α × β)) :
    validate_epoch L pd forward bs loss loss_phys test_loader train_loader
      = ((validate_epoch L 1 forward bs loss loss_phys test_loader train_loader).1,
         (validate_epoch L 1 forward bs loss loss_phys test_loader train_loader).2.1,
         0, 0,
         (validate_epoch L 1 forward bs loss loss_phys
            test_loader train_loader).2.2.2.2) := by
  obtain ⟨h1, h2, h3, h4, h5⟩ :=
    val_test_fold_pd L pd hpd1 hpd2 forward bs test_loader 0 0 0 0 0 0 0
  simp only [validate_epoch, Prod.mk.injEq]
  refine ⟨?_, ?_, ?_, ?_, ?_⟩
  · rw [h1, h5]
  · rw [h2, h5]
  · rw [h3, zero_div]
  · rw [h4, zero_div]
  · trivial

/-- A concrete collection of loss functions used to instantiate the
validate_epoch embedding. -/
noncomputable def unitLossFns : ValLossFns Unit :=
  ⟨fun _ _ => 1, fun _ _ => 1, fun _ _ => 1, fun _ _ => 1, fun _ _ => 1, fun _ _ => 1⟩

/-- Witness for C9 at the unsupported problem dimension 3 with a one-batch
test loader. -/
theorem C9_unsupported_dim_returns_zero_witness :
    ((3 : ℕ) ≠ 1 ∧ (3 : ℕ) ≠ 2) ∧
    validate_epoch unitLossFns 3 (fun _ : Unit => ()) (fun _ => 1)
        (fun _ _ => 0) (fun _ _ => 0) [((), ())] []
      = ((validate_epoch unitLossFns 1 (fun _ : Unit => ()) (fun _ => 1)
            (fun _ _ => 0) (fun _ _ => 0) [((), ())] []).1,
         (validate_epoch unitLossFns 1 (fun _ : Unit => ()) (fun _ => 1)
            (fun _ _ => 0) (fun _ _ => 0) [((), ())] []).2.1,
         0, 0,
         (validate_epoch unitLossFns 1 (fun _ : Unit => ()) (fun _ => 1)
            (fun _ _ => 0) (fun _ _ => 0) [((), ())] []).2.2.2.2) :=
  ⟨⟨by norm_num, by norm_num⟩,
    C9_unsupported_dim_returns_zero unitLossFns 3 (by norm_num) (by norm_num)
      (fun _ => ()) (fun _ => 1) (fun _ _ => 0) (fun _ _ => 0) [((), ())] []⟩

/-- Batches after the first never touch the captured pair: once the step
counter is nonzero the loop leaves its accumulator unchanged. -/
lemma train_epoch_loop_ne_zero {σ τ : Type} (device : Device) (n_idx : ℤ) :
    ∀ (l : List (Tensor σ × Tensor τ)) (step : ℕ)
      (acc : Option (Tensor σ × Tensor τ)), step ≠ 0 →
      train_epoch_loop device n_idx l step acc = acc
  | [], _, _, _ => rfl
  | b :: rest, step, acc, hstep => by
    simp only [train_epoch_loop]
    rw [if_neg fun hc => hstep hc.1]
    exact train_epoch_loop_ne_zero device n_idx rest (step + 1) acc (Nat.succ_ne_zero step)

/-- With a nonpositive n_idx the loop never captures anything. -/
lemma train_epoch_loop_nonpos {σ τ : Type} (device : Device) (n_idx : ℤ)
    (hn : ¬0 < n_idx) :
    ∀ (l : List (Tensor σ × Tensor τ)) (step : ℕ)
      (acc : Option (Tensor σ × Tensor τ)),
      train_epoch_loop device n_idx l step acc = acc
  | [], _, _ => rfl
  | b :: rest, step, acc => by
    simp only [train_epoch_loop]
    rw [if_neg fun hc => hn hc.2]
    exact train_epoch_loop_nonpos device n_idx hn rest (step + 1) acc

/-- C10: train_epoch returns None exactly when n_idx is nonpositive (with a
positive n_idx and an empty loader it instead fails with an unbound local
variable, which is not a None return); and with a positive n_idx and a
non-empty loader it returns the first n_idx samples of the first batch,
moved to the device and then back to the CPU, a value the remaining batches
of the epoch never modify. -/
theorem C10_train_epoch_first_batch {σ τ : Type} (device : Device) (n_idx : ℤ) :
    (∀ loader : List (Tensor σ × Tensor τ),
      (train_epoch device n_idx loader = EpochResult.noneResult ↔ n_idx ≤ 0)) ∧
    (0 < n_idx → ∀ (b : Tensor σ × Tensor τ) (rest : List (Tensor σ × Tensor τ)),
      train_epoch device n_idx (b :: rest)
        = EpochResult.pair ((b.1.to device).slice n_idx).cpu
            ((b.2.to device).slice n_idx).cpu) := by
  constructor
  · intro loader
    constructor
    · intro h
      by_contra hpos
      have hpos : 0 < n_idx := by omega
      unfold train_epoch at h
      rcases hl : train_epoch_loop device n_idx loader 0 none with _ | ⟨e, s⟩ <;>
        rw [hl] at h <;> simp [hpos] at h
    · intro hle
      have hn : ¬0 < n_idx := by omega
      unfold train_epoch
      rw [train_epoch_loop_nonpos device n_idx hn loader 0 none]
      simp [hn]
  · intro hpos b rest
    have hl : train_epoch_loop device n_idx (b :: rest) 0 none
        = some (((b.1.to device).slice n_idx).cpu, ((b.2.to device).slice n_idx).cpu) := by
      simp only [train_epoch_loop]
      rw [if_pos (And.intro trivial hpos)]
      exact train_epoch_loop_ne_zero device n_idx rest 1 _ one_ne_zero
    unfold train_epoch
    rw [hl]
    simp [hpos]

/-- Witness for C10: a two-batch loader on the cuda device with n_idx = 2;
the returned pair is the first two samples of the first batch on the CPU. -/
theorem C10_train_epoch_first_batch_witness :
    (0 : ℤ) < 2 ∧
    train_epoch Device.cuda 2
        [((⟨Device.cpu, [1, 2, 3]⟩ : Tensor ℕ), (⟨Device.cpu, [4, 5, 6]⟩ : Tensor ℕ)),
         (⟨Device.cpu, [7]⟩, ⟨Device.cpu, [8]⟩)]
      = EpochResult.pair (⟨Device.cpu, [1, 2]⟩ : Tensor ℕ)
          (⟨Device.cpu, [4, 5]⟩ : Tensor ℕ) := by
  refine ⟨by norm_num, ?_⟩
  have h := (C10_train_epoch_first_batch Device.cuda 2).2 (by norm_num)
    ((⟨Device.cpu, [1, 2, 3]⟩ : Tensor ℕ), (⟨Device.cpu, [4, 5, 6]⟩ : Tensor ℕ))
    [(⟨Device.cpu, [7]⟩, ⟨Device.cpu, [8]⟩)]
  rw [h]
  rfl

end HyperNOs
